import Mathlib

/-!
Shallow embedding of `convert_to_openelections.py`, the format-detection and
row-extraction core of the Maryland OpenElections converter, together with
proofs about the frozen specification claims.

Modelling conventions:
  * Python `str` values are Lean `String`s (lists of characters); whitespace,
    case folding and digit recognition are modelled over the ASCII range, which
    covers every character used by the converter tables and markers.
  * Python `int(...)` applied to a string is modelled by `pyInt`, returning
    `none` where Python raises `ValueError`.
  * File input is modelled at the boundary the source itself uses: the CSV
    extractors consume the list of parsed CSV records (lists of cell strings),
    the pipe extractor consumes the list of text lines, and the modern
    extractor consumes the header field list plus one association list per
    record, mirroring `csv.DictReader`.
  * Cell values are assumed single-line (the regular expressions in the source
    use `.*$`, which only differs on embedded newlines).
-/

namespace MD

/-- Characters treated as whitespace by Python `str.strip()` and `\s`
(ASCII range). -/
def pyWs (c : Char) : Bool :=
  c == ' ' || c == Char.ofNat 9 || c == Char.ofNat 10 || c == Char.ofNat 13 ||
    c == Char.ofNat 11 || c == Char.ofNat 12

/-- The double-quote character. -/
def quoteC : Char := Char.ofNat 34

/-- The apostrophe character. -/
def apostC : Char := Char.ofNat 39

/-- The grave-accent (backtick) character. -/
def graveC : Char := Char.ofNat 96

/-- One-character string holding an apostrophe. -/
def apostS : String := ⟨[apostC]⟩

/-- One-character string holding a grave accent. -/
def graveS : String := ⟨[graveC]⟩

/-- Drop characters satisfying `p` from both ends of a character list:
the semantics of Python `str.strip(chars)`. -/
def stripEdge (p : Char → Bool) (l : List Char) : List Char :=
  ((l.dropWhile p).reverse.dropWhile p).reverse

/-- Python `s.strip()`. -/
def pyStrip (s : String) : String := ⟨stripEdge pyWs s.data⟩

/-- Python strip of the double-quote character from both ends of `s`. -/
def stripQuotes (s : String) : String := ⟨stripEdge (fun c => c == quoteC) s.data⟩

/-- Python `s.rstrip()`. -/
def rstripStr (s : String) : String := ⟨(s.data.reverse.dropWhile pyWs).reverse⟩

/-- ASCII lowercase of a character list (Python `str.lower()` on the inputs
this converter sees). -/
def toLowerL (l : List Char) : List Char := l.map Char.toLower

/-- ASCII lowercase of a string. -/
def toLowerStr (s : String) : String := ⟨toLowerL s.data⟩

/-- ASCII uppercase of a string (Python `str.upper()`). -/
def toUpperStr (s : String) : String := ⟨s.data.map Char.toUpper⟩

/-- Substring test: Python `needle in hay`. -/
def containsSub (needle : List Char) : List Char → Bool
  | [] => needle.isEmpty
  | c :: t => needle.isPrefixOf (c :: t) || containsSub needle t

/-- Python `pat in s` on strings. -/
def strContains (s pat : String) : Bool := containsSub pat.data s.data

/-- Python `s.endswith(suf)`. -/
def endsWithStr (s suf : String) : Bool := suf.data.isSuffixOf s.data

/-- Python `s.replace(",", "")`. -/
def removeCommas (s : String) : String := ⟨s.data.filter (fun c => !(c == ','))⟩

mutual

/-- Digit-run validity for Python `int(str)`: nonempty, starts with a digit,
underscores only singly and between digits. -/
def digitsOK : List Char → Bool
  | [] => false
  | c :: rest => c.isDigit && digitsRest rest

/-- Continuation of `digitsOK` after at least one digit has been seen. -/
def digitsRest : List Char → Bool
  | [] => true
  | c :: rest => if c == '_' then digitsOK rest else c.isDigit && digitsRest rest

end

/-- Numeric value of a digit run (underscores skipped, as Python does). -/
def digitsVal (l : List Char) : Nat :=
  (l.filter (fun c => !(c == '_'))).foldl (fun n c => 10 * n + (c.toNat - 48)) 0

/-- Python `int(s)` on a string: strips whitespace, allows one sign character,
then a digit run; `none` models `ValueError`.  (Python additionally accepts
non-ASCII digits, which never occur in these data files.) -/
def pyInt (s : String) : Option Int :=
  match stripEdge pyWs s.data with
  | [] => none
  | c :: rest =>
    if c == '+' then (if digitsOK rest then some ((digitsVal rest : Nat) : Int) else none)
    else if c == '-' then (if digitsOK rest then some (-((digitsVal rest : Nat) : Int)) else none)
    else if digitsOK (c :: rest) then some ((digitsVal (c :: rest) : Nat) : Int) else none

/-- The `OFFICE_CLEANUPS` synonym table, as `dict.get` with default. -/
def OFFICE_CLEANUPS_get (office : String) : String :=
  if office = "President and Vice President of the United States" then "President"
  else if office = "President / Vice President" then "President"
  else if office = "President - Vice Pres" then "President"
  else if office = "Governor / Lt. Governor" then "Governor"
  else office

/-- The `COUNTY_FIXES` table, as `dict.get` with default: three county names
whose possessive apostrophe is rendered as a grave accent in the source data. -/
def COUNTY_FIXES_get (county : String) : String :=
  if county = "Prince George" ++ graveS ++ "s" then "Prince George" ++ apostS ++ "s"
  else if county = "Queen Anne" ++ graveS ++ "s" then "Queen Anne" ++ apostS ++ "s"
  else if county = "St. Mary" ++ graveS ++ "s" then "St. Mary" ++ apostS ++ "s"
  else county

/-- The `COUNTY_CODE_TO_NAME` table: the 24 Maryland county codes. -/
def COUNTY_CODE_TO_NAME_get (code : String) : Option String :=
  if code = "01" then some "Allegany"
  else if code = "02" then some "Anne Arundel"
  else if code = "03" then some "Baltimore City"
  else if code = "04" then some "Baltimore"
  else if code = "05" then some "Calvert"
  else if code = "06" then some "Caroline"
  else if code = "07" then some "Carroll"
  else if code = "08" then some "Cecil"
  else if code = "09" then some "Charles"
  else if code = "10" then some "Dorchester"
  else if code = "11" then some "Frederick"
  else if code = "12" then some "Garrett"
  else if code = "13" then some "Harford"
  else if code = "14" then some "Howard"
  else if code = "15" then some "Kent"
  else if code = "16" then some "Montgomery"
  else if code = "17" then some ("Prince George" ++ apostS ++ "s")
  else if code = "18" then some ("Queen Anne" ++ apostS ++ "s")
  else if code = "19" then some ("St. Mary" ++ apostS ++ "s")
  else if code = "20" then some "Somerset"
  else if code = "21" then some "Talbot"
  else if code = "22" then some "Washington"
  else if code = "23" then some "Wicomico"
  else if code = "24" then some "Worcester"
  else none

/-- Match of the regular expression `\s*-\s*Vote For` (case-insensitive on the
words) at the head of a character list.  Because whitespace never equals `-`
or `v`, the greedy `\s*` runs must consume the maximal whitespace runs. -/
def matchDashVoteFor (cs : List Char) : Bool :=
  match cs.dropWhile pyWs with
  | c :: rest => c == '-' && "vote for".data.isPrefixOf (toLowerL (rest.dropWhile pyWs))
  | [] => false

/-- Match of `\s*-\s*\(Vote for` (case-insensitive) at the head of a list. -/
def matchDashParenVoteFor (cs : List Char) : Bool :=
  match cs.dropWhile pyWs with
  | c :: rest =>
    c == '-' &&
      (match rest.dropWhile pyWs with
       | d :: r2 => d == '(' && "vote for".data.isPrefixOf (toLowerL r2)
       | [] => false)
  | [] => false

/-- Truncate a list at the leftmost position whose suffix satisfies `p`:
the effect of `re.sub(pat + ".*$", "", s)` for the office patterns. -/
def truncAt (p : List Char → Bool) : List Char → List Char
  | [] => []
  | c :: rest => if p (c :: rest) then [] else c :: truncAt p rest

/-- Embedding of `normalize_office`. -/
def normalize_office (raw : String) : String :=
  let office := stripQuotes (pyStrip raw)
  let o1 := truncAt matchDashVoteFor office.data
  let o2 := truncAt matchDashParenVoteFor o1
  let o3 := stripEdge (fun c => c == ' ' || c == '-') o2
  OFFICE_CLEANUPS_get ⟨o3⟩

/-- Effect of `re.sub(r"\s+County$", "", s, flags=re.I)`: remove one trailing
`County` (any case) together with the whitespace run before it. -/
def countySuffixSub (cs : List Char) : List Char :=
  let r := cs.reverse
  if "ytnuoc".data.isPrefixOf (toLowerL r) then
    match r.drop 6 with
    | c :: rest2 =>
      if pyWs c then ((c :: rest2).dropWhile pyWs).reverse else cs
    | [] => cs
  else cs

/-- Effect of `re.sub(r"\s+city$", " City", s, flags=re.I)`. -/
def citySuffixSub (cs : List Char) : List Char :=
  let r := cs.reverse
  if "ytic".data.isPrefixOf (toLowerL r) then
    match r.drop 4 with
    | c :: rest2 =>
      if pyWs c then (((c :: rest2).dropWhile pyWs).reverse) ++ " City".data else cs
    | [] => cs
  else cs

/-- Python `s.replace(backtick, apostrophe)`. -/
def graveToApost (cs : List Char) : List Char :=
  cs.map (fun c => if c == graveC then apostC else c)

/-- Embedding of `normalize_county`. -/
def normalize_county (raw : String) : String :=
  let county := pyStrip (stripQuotes (pyStrip raw))
  let c1 := countySuffixSub county.data
  let c2 := citySuffixSub c1
  let c3 := COUNTY_FIXES_get ⟨c2⟩
  ⟨graveToApost c3.data⟩

/-- Replace every whitespace character by a plain space (first half of
`re.sub(r"\s+", " ", s)`). -/
def collapseWsMap (l : List Char) : List Char := l.map (fun c => if pyWs c then ' ' else c)

/-- Squeeze runs of spaces to one space (second half of `re.sub(r"\s+", " ", s)`). -/
def squeezeSpaces : List Char → List Char
  | [] => []
  | [c] => [c]
  | a :: b :: rest =>
    if a == ' ' && b == ' ' then squeezeSpaces (b :: rest) else a :: squeezeSpaces (b :: rest)

/-- Python `re.sub(r"\s+", " ", s).strip()`. -/
def collapseStrip (s : String) : String := pyStrip ⟨squeezeSpaces (collapseWsMap s.data)⟩

/-- Search for `\(([^()]*)\)\s*$`: a final parenthesized group (no nested
parens) followed only by whitespace.  Returns the text before the `(` and the
group contents when the pattern matches. -/
def trailingParen (cs : List Char) : Option (List Char × List Char) :=
  match cs.reverse.dropWhile pyWs with
  | c :: r2 =>
    if c == ')' then
      let inside := r2.takeWhile (fun d => !(d == '(') && !(d == ')'))
      match r2.drop inside.length with
      | d :: r4 => if d == '(' then some (r4.reverse, inside.reverse) else none
      | [] => none
    else none
  | [] => none

/-- Embedding of `parse_candidate`. -/
def parse_candidate (cell : String) : String × String × String :=
  let text0 := stripQuotes (pyStrip cell)
  let winner := if endsWithStr text0 " Winner" then "TRUE" else ""
  let text :=
    if endsWithStr text0 " Winner" then rstripStr ⟨text0.data.take (text0.data.length - 7)⟩
    else text0
  let cp :=
    match trailingParen text.data with
    | some bi => (pyStrip ⟨bi.1⟩, pyStrip ⟨bi.2⟩)
    | none => (text, ("" : String))
  (collapseStrip cp.1, collapseStrip cp.2, winner)

/-- The canonical output row: the dict appended to `rows_out`, in the fixed
`fieldnames` order of the writer. -/
structure Row where
  county : String
  precinct : String
  office : String
  district : String
  party : String
  candidate : String
  votes : Int
  winner : String
deriving DecidableEq, Repr

/-- The markers that identify an office-announcement row in
`convert_csv_style_file`. -/
def markers : List String :=
  ["Vote For", "Vote for", "Vote For One", "Vote For One Pair", "Vote for One Pair"]

/-- Candidate-header row handling in `convert_csv_style_file`: build the
candidates list from the cells after the first column. -/
def buildCandidates (cells : List String) : List (String × String × String) :=
  cells.filterMap (fun cell0 =>
    let cell := pyStrip cell0
    if cell == "" then none
    else
      let t := parse_candidate cell
      if t.1 == "" then none else some t)

/-- Inner loop of the county-data branch of `convert_csv_style_file`:
`enumerate(candidates, start=1)` against the positional vote cells. -/
def emitData (office county : String) (rowS : List String) :
    Nat → List (String × String × String) → List Row
  | _, [] => []
  | idx, t :: rest =>
    (if h : idx < rowS.length then
      let vote_cell := stripQuotes (pyStrip (rowS.get ⟨idx, h⟩))
      if vote_cell == "" then []
      else
        match pyInt (removeCommas vote_cell) with
        | some v => [⟨county, "", office, "", t.2.1, t.1, v, t.2.2⟩]
        | none => []
    else []) ++ emitData office county rowS (idx + 1) rest

/-- Cross-row parser state of `convert_csv_style_file`: the current office and
candidate headers. -/
structure CsvState where
  office : Option String
  candidates : List (String × String × String)

/-- Python truthiness of the `office` variable (`None` and `""` are falsy). -/
def truthyOpt : Option String → Bool
  | none => false
  | some s => !(s == "")

/-- One iteration of the row loop of `convert_csv_style_file`. -/
def csvStep (acc : CsvState × List Row) (row0 : List String) : CsvState × List Row :=
  let row := row0.map pyStrip
  if row.all (fun x => x == "") then acc
  else
    let first := pyStrip (stripQuotes (row.headD ""))
    if !(first == "") && decide ((row.tail.filter (fun x => !(x == ""))).length ≤ 1) &&
        markers.any (fun m => strContains first m) then
      ({ office := some (normalize_office first), candidates := [] }, acc.2)
    else if (first == "") && truthyOpt acc.1.office then
      ({ office := acc.1.office, candidates := buildCandidates row.tail }, acc.2)
    else if truthyOpt acc.1.office && !acc.1.candidates.isEmpty && !(first == "") then
      match acc.1.office with
      | some off => (acc.1, acc.2 ++ emitData off (normalize_county first) row 1 acc.1.candidates)
      | none => acc
    else acc

/-- Embedding of `convert_csv_style_file` over the parsed CSV records of the
input file (the writer part is out of scope; the produced row list is
returned). -/
def convert_csv_style_file (rows : List (List String)) : List Row :=
  (rows.foldl csvStep ({ office := none, candidates := [] }, [])).2

/-- Python `raw.split("|")` on a character list. -/
def splitPipe : List Char → List (List Char)
  | [] => [[]]
  | c :: rest =>
    let r := splitPipe rest
    if c == '|' then [] :: r
    else
      match r with
      | [] => [[c]]
      | h :: t => (c :: h) :: t

/-- The literal `\N` token used as SQL NULL in the pipe format. -/
def NULLTOK : String := "\\N"

/-- The stripped `|`-separated fields of one pipe-format line
(`[p.strip() for p in line.rstrip("\n").split("|")]`). -/
def pipe_parts (line : String) : List String :=
  let raw := (line.data.reverse.dropWhile (fun c => c == Char.ofNat 10)).reverse
  (splitPipe raw).map (fun p => pyStrip ⟨p⟩)

/-- One iteration of the line loop of `convert_pipe_style_file`: `none` when
the loop body hits a `continue`, `some row` when it appends a row. -/
def pipe_line_to_row (line : String) : Option Row :=
  let raw := (line.data.reverse.dropWhile (fun c => c == Char.ofNat 10)).reverse
  if pyStrip ⟨raw⟩ == "" then none
  else
    let parts := pipe_parts line
    if parts.length < 10 then none
    else
      let office_raw := parts.getD 0 ""
      let county_raw := parts.getD 2 ""
      let lastN := parts.getD 3 ""
      let middleN := parts.getD 4 ""
      let firstN := parts.getD 5 ""
      let party0 := parts.getD 6 ""
      let winner_flag := parts.getD 7 ""
      let votes_raw := parts.getD 9 ""
      if votes_raw == "" || votes_raw == NULLTOK then none
      else
        match pyInt (removeCommas votes_raw) with
        | none => none
        | some votes =>
          let name_parts := [firstN, middleN, lastN].filter (fun x => !(x == "") && !(x == NULLTOK))
          let candidate0 := pyStrip (String.intercalate " " name_parts)
          let candidate1 := if candidate0 == "" then "Unknown" else candidate0
          let candidate2 :=
            if toLowerStr candidate1 == "other write-ins" || toLowerStr lastN == "zz998" then
              "Other Write-Ins"
            else candidate1
          let party := if party0 == NULLTOK then "" else party0
          let winner := if winner_flag == "1" then "TRUE" else ""
          some ⟨normalize_county county_raw, "", normalize_office office_raw, "",
                party, candidate2, votes, winner⟩

/-- Embedding of `convert_pipe_style_file` over the text lines of the input. -/
def convert_pipe_style_file (lines : List String) : List Row :=
  lines.filterMap pipe_line_to_row

/-- Embedding of `parse_int`: `None` and unparseable text map to `0`. -/
def parse_int (value : Option String) : Int :=
  match value with
  | none => 0
  | some v =>
    if stripQuotes (pyStrip v) == "" then 0
    else
      match pyInt (removeCommas (stripQuotes (pyStrip v))) with
      | some n => n
      | none => 0

/-- Lookup in a `csv.DictReader` record, modelled as an association list
(`row.get(key)`; an absent key yields `none`). -/
def rowGet (row : List (String × String)) (key : String) : Option String :=
  (row.find? (fun kv => kv.1 == key)).map (fun kv => kv.2)

/-- Python `(row.get(key) or "")`. -/
def getOr (row : List (String × String)) (key : String) : String := (rowGet row key).getD ""

/-- Python `s.zfill(w)`. -/
def zfill (w : Nat) (s : String) : String :=
  if w ≤ s.data.length then s
  else
    match s.data with
    | c :: rest =>
      if c == '+' || c == '-' then ⟨c :: (List.replicate (w - s.data.length) '0' ++ rest)⟩
      else ⟨List.replicate (w - s.data.length) '0' ++ s.data⟩
    | [] => ⟨List.replicate w '0'⟩

/-- The vote-column selection of `convert_modern_precinct_csv`: headers that
are truthy, contain `"Votes"` and do not contain `"Against"`. -/
def vote_columns_of (fieldnames : List String) : List String :=
  fieldnames.filter (fun c => !(c == "") && strContains c "Votes" && !(strContains c "Against"))

/-- Body of the record loop of `convert_modern_precinct_csv`: the row built
for one input record. -/
def modern_row_out (vote_columns : List String) (row : List (String × String)) : Row :=
  let county_name0 := pyStrip (getOr row "County Name")
  let county_code := zfill 2 (pyStrip (getOr row "County"))
  let county_name :=
    if county_name0 == "" then (COUNTY_CODE_TO_NAME_get county_code).getD county_code
    else county_name0
  let county := normalize_county county_name
  let ep := pyStrip (getOr row "Election District - Precinct")
  let precinct :=
    if !(ep == "") then ep
    else
      let ed := pyStrip (getOr row "Election District")
      let pr := pyStrip (getOr row "Election Precinct")
      if !(ed == "") || !(pr == "") then ed ++ "-" ++ pr else ""
  let office := normalize_office (pyStrip (getOr row "Office Name"))
  let district := stripQuotes (pyStrip (getOr row "Office District"))
  let candidate := stripQuotes (pyStrip (getOr row "Candidate Name"))
  let party := stripQuotes (pyStrip (getOr row "Party"))
  let winner_cell := toUpperStr (pyStrip (getOr row "Winner"))
  let winner := if winner_cell == "Y" || winner_cell == "TRUE" || winner_cell == "1" then "TRUE" else ""
  let votes := (vote_columns.map (fun col => parse_int (rowGet row col))).sum
  ⟨county, precinct, office, district, party, candidate, votes, winner⟩

/-- Embedding of `convert_modern_precinct_csv` over the `DictReader` header
field list and records. -/
def convert_modern_precinct_csv (fieldnames : List String)
    (rows : List (List (String × String))) : List Row :=
  if fieldnames.isEmpty then []
  else rows.map (modern_row_out (vote_columns_of fieldnames))

/-- Embedding of `detect_csv_format` over the parsed CSV records of the file
(only the first record, the header, is inspected). -/
def detect_csv_format (parsedRows : List (List String)) : String :=
  let header := parsedRows.headD []
  let normalized := header.map (fun h => stripQuotes (pyStrip h))
  if normalized.contains "Candidate Name" && normalized.contains "Office Name" then "modern"
  else "legacy"

/-- Which of the three extractors a file is routed to. -/
inductive ExtractorKind
  | pipeStyle
  | modernStyle
  | legacyStyle
deriving DecidableEq, Repr

/-- The dispatch of `convert_file`: extension check first, then
`detect_csv_format` on the content. -/
def convert_file_choice (suffix : String) (parsedRows : List (List String)) : ExtractorKind :=
  if toLowerStr suffix == ".txt" then ExtractorKind.pipeStyle
  else if detect_csv_format parsedRows == "modern" then ExtractorKind.modernStyle
  else ExtractorKind.legacyStyle

/-- The latin-1 decoder: total on byte sequences, mapping byte `b` to the code
point `b`. -/
def latin1_decode (bs : List (Fin 256)) : Option (List Nat) :=
  some (bs.map Fin.val)

/-- Embedding of `read_text_with_fallback`: the utf-8-sig and cp1252 decoders
are parameters (they are Python codec behaviour, external to the repository);
each `try/except UnicodeDecodeError` arm is an `Option`-valued attempt, and
the final line retries utf-8-sig so that a failure there would surface. -/
def read_text_with_fallback (utf8sigD cp1252D : List (Fin 256) → Option (List Nat))
    (bs : List (Fin 256)) : Option (List Nat) :=
  match utf8sigD bs with
  | some t => some t
  | none =>
    match cp1252D bs with
    | some t => some t
    | none =>
      match latin1_decode bs with
      | some t => some t
      | none => utf8sigD bs

/-! Helper lemmas shared by the claim proofs. -/

/-- Membership is preserved from `dropWhile` back to the original list. -/
theorem mem_of_dropWhile {p : Char → Bool} {l : List Char} {x : Char}
    (h : x ∈ l.dropWhile p) : x ∈ l :=
  (List.dropWhile_sublist p).subset h

/-- Membership is preserved from `stripEdge` back to the original list. -/
theorem mem_of_stripEdge {p : Char → Bool} {l : List Char} {x : Char}
    (h : x ∈ stripEdge p l) : x ∈ l := by
  unfold stripEdge at h
  rw [List.mem_reverse] at h
  have h2 := mem_of_dropWhile h
  rw [List.mem_reverse] at h2
  exact mem_of_dropWhile h2

/-- Membership is preserved from `pyStrip` back to the original string. -/
theorem mem_of_pyStrip {s : String} {x : Char}
    (h : x ∈ (pyStrip s).data) : x ∈ s.data :=
  mem_of_stripEdge h

/-- Membership is preserved from `stripQuotes` back to the original string. -/
theorem mem_of_stripQuotes {s : String} {x : Char}
    (h : x ∈ (stripQuotes s).data) : x ∈ s.data :=
  mem_of_stripEdge h

/-- Membership is preserved from `removeCommas` back to the original string. -/
theorem mem_of_removeCommas {s : String} {x : Char}
    (h : x ∈ (removeCommas s).data) : x ∈ s.data :=
  List.mem_of_mem_filter h

/-- A string without a minus sign can only parse to a non-negative integer. -/
theorem pyInt_nonneg {s : String} {n : Int} (hm : '-' ∉ s.data)
    (h : pyInt s = some n) : 0 ≤ n := by
  unfold pyInt at h
  split at h
  · exact absurd h (by simp)
  · rename_i c rest hcs
    have hcmem : c ∈ s.data := mem_of_stripEdge (by rw [hcs]; exact List.mem_cons_self c rest)
    split at h
    · split at h
      · obtain rfl : ((digitsVal rest : Nat) : Int) = n := by injection h
        exact Int.natCast_nonneg _
      · exact absurd h (by simp)
    · split at h
      · rename_i hminus
        rw [eq_of_beq hminus] at hcmem
        exact absurd hcmem hm
      · split at h
        · obtain rfl : ((digitsVal (c :: rest) : Nat) : Int) = n := by injection h
          exact Int.natCast_nonneg _
        · exact absurd h (by simp)

/-- `parse_int` of a minus-free cell is non-negative. -/
theorem parse_int_nonneg {o : Option String}
    (hm : ∀ v, o = some v → '-' ∉ v.data) : 0 ≤ parse_int o := by
  rcases o with _ | v
  · simp [parse_int]
  · have hv : '-' ∉ v.data := hm v rfl
    simp only [parse_int]
    split
    · exact le_refl (0 : Int)
    · split
      · rename_i n hn
        refine pyInt_nonneg ?_ hn
        intro hc
        exact hv (mem_of_pyStrip (mem_of_stripQuotes (mem_of_removeCommas hc)))
      · exact le_refl (0 : Int)

/-- The winner component of `parse_candidate` is literally the trailing
`" Winner"` test. -/
theorem parse_candidate_winner_eq (cell : String) :
    (parse_candidate cell).2.2 =
      (if endsWithStr (stripQuotes (pyStrip cell)) " Winner" then "TRUE" else "") := rfl

/-- The winner component of `parse_candidate` is `"TRUE"` or empty. -/
theorem parse_candidate_winner_ok (cell : String) :
    (parse_candidate cell).2.2 = "TRUE" ∨ (parse_candidate cell).2.2 = "" := by
  rw [parse_candidate_winner_eq]
  split
  · exact Or.inl rfl
  · exact Or.inr rfl

/-- Every row produced by the inner data loop carries a winner value taken
from the candidates list. -/
theorem emitData_winner_ok {office county : String} {rowS : List String}
    {cs : List (String × String × String)}
    (hcs : ∀ t ∈ cs, t.2.2 = "TRUE" ∨ t.2.2 = "") :
    ∀ idx r, r ∈ emitData office county rowS idx cs →
      r.winner = "TRUE" ∨ r.winner = "" := by
  induction cs with
  | nil => intro idx r hr; simp [emitData] at hr
  | cons t rest ih =>
    intro idx r hr
    simp only [emitData] at hr
    rw [List.mem_append] at hr
    rcases hr with hr | hr
    · split at hr
      · split at hr
        · simp at hr
        · split at hr
          · rw [List.mem_singleton] at hr
            subst hr
            exact hcs t (List.mem_cons_self t rest)
          · simp at hr
      · simp at hr
    · exact ih (fun u hu => hcs u (List.mem_cons_of_mem t hu)) (idx + 1) r hr

/-- Every row produced by the inner data loop has non-negative votes when the
cells of the data row contain no minus sign. -/
theorem emitData_votes_nonneg {office county : String} {rowS : List String}
    (hrow : ∀ cell ∈ rowS, '-' ∉ cell.data) :
    ∀ cs idx r, r ∈ emitData office county rowS idx cs → 0 ≤ r.votes := by
  intro cs
  induction cs with
  | nil => intro idx r hr; simp [emitData] at hr
  | cons t rest ih =>
    intro idx r hr
    simp only [emitData] at hr
    rw [List.mem_append] at hr
    rcases hr with hr | hr
    · split at hr
      · rename_i hlt
        split at hr
        · simp at hr
        · split at hr
          · rename_i v hv
            rw [List.mem_singleton] at hr
            subst hr
            show 0 ≤ v
            refine pyInt_nonneg ?_ hv
            intro hc
            exact hrow _ (List.get_mem rowS idx hlt)
              (mem_of_pyStrip (mem_of_stripQuotes (mem_of_removeCommas hc)))
          · simp at hr
      · simp at hr
    · exact ih (idx + 1) r hr

/-- Every candidate triple built from a header row has a binary winner. -/
theorem buildCandidates_winner_ok {cells : List String} :
    ∀ t ∈ buildCandidates cells, t.2.2 = "TRUE" ∨ t.2.2 = "" := by
  intro t ht
  simp only [buildCandidates, List.mem_filterMap] at ht
  obtain ⟨cell0, _, hf⟩ := ht
  split at hf
  · exact absurd hf (by simp)
  · split at hf
    · exact absurd hf (by simp)
    · obtain rfl : parse_candidate (pyStrip cell0) = t := by injection hf
      exact parse_candidate_winner_ok _

/-- One parser step preserves the binary-winner invariant on both the
candidate state and the emitted rows. -/
theorem csvStep_inv (acc : CsvState × List Row) (row0 : List String)
    (hc : ∀ t ∈ acc.1.candidates, t.2.2 = "TRUE" ∨ t.2.2 = "")
    (ho : ∀ r ∈ acc.2, r.winner = "TRUE" ∨ r.winner = "") :
    (∀ t ∈ (csvStep acc row0).1.candidates, t.2.2 = "TRUE" ∨ t.2.2 = "") ∧
      (∀ r ∈ (csvStep acc row0).2, r.winner = "TRUE" ∨ r.winner = "") := by
  simp only [csvStep]
  split
  · exact ⟨hc, ho⟩
  · split
    · exact ⟨fun t ht => by simp at ht, ho⟩
    · split
      · exact ⟨fun t ht => buildCandidates_winner_ok t ht, ho⟩
      · split
        · split
          · refine ⟨hc, fun r hr => ?_⟩
            rw [List.mem_append] at hr
            rcases hr with hr | hr
            · exact ho r hr
            · exact emitData_winner_ok hc _ r hr
          · exact ⟨hc, ho⟩
        · exact ⟨hc, ho⟩

/-- The whole pivoted-legacy fold preserves the binary-winner invariant. -/
theorem csv_fold_winner : ∀ (rows : List (List String)) (acc : CsvState × List Row),
    (∀ t ∈ acc.1.candidates, t.2.2 = "TRUE" ∨ t.2.2 = "") →
    (∀ r ∈ acc.2, r.winner = "TRUE" ∨ r.winner = "") →
    ∀ r ∈ (rows.foldl csvStep acc).2, r.winner = "TRUE" ∨ r.winner = ""
  | [], _, _, ho => ho
  | row :: rest, acc, hc, ho => by
    have h := csvStep_inv acc row hc ho
    exact csv_fold_winner rest (csvStep acc row) h.1 h.2

/-- One parser step preserves non-negativity of emitted votes when the
cells of the incoming row contain no minus sign. -/
theorem csvStep_votes (acc : CsvState × List Row) (row0 : List String)
    (hrow : ∀ cell ∈ row0, '-' ∉ cell.data)
    (ho : ∀ r ∈ acc.2, 0 ≤ r.votes) :
    ∀ r ∈ (csvStep acc row0).2, 0 ≤ r.votes := by
  simp only [csvStep]
  split
  · exact ho
  · split
    · exact ho
    · split
      · exact ho
      · split
        · split
          · intro r hr
            rw [List.mem_append] at hr
            rcases hr with hr | hr
            · exact ho r hr
            · refine emitData_votes_nonneg ?_ _ _ r hr
              intro cell hcell hneg
              rw [List.mem_map] at hcell
              obtain ⟨c0, hc0, rfl⟩ := hcell
              exact hrow c0 hc0 (mem_of_pyStrip hneg)
          · exact ho
        · exact ho

/-- The whole pivoted-legacy fold preserves non-negativity of votes when no
input cell contains a minus sign. -/
theorem csv_fold_votes : ∀ (rows : List (List String)) (acc : CsvState × List Row),
    (∀ rrow ∈ rows, ∀ cell ∈ rrow, '-' ∉ cell.data) →
    (∀ r ∈ acc.2, 0 ≤ r.votes) →
    ∀ r ∈ (rows.foldl csvStep acc).2, 0 ≤ r.votes
  | [], _, _, ho => ho
  | row :: rest, acc, hrow, ho => by
    have h := csvStep_votes acc row (hrow row (List.mem_cons_self row rest)) ho
    exact csv_fold_votes rest (csvStep acc row)
      (fun rr hrr => hrow rr (List.mem_cons_of_mem row hrr)) h

/-- Characters of any `split("|")` field come from the split line. -/
theorem splitPipe_chars : ∀ (l : List Char) (p : List Char), p ∈ splitPipe l →
    ∀ c ∈ p, c ∈ l := by
  intro l
  induction l with
  | nil =>
    intro p hp c hc
    simp only [splitPipe, List.mem_singleton] at hp
    subst hp
    simp at hc
  | cons c0 rest ih =>
    intro p hp c hc
    simp only [splitPipe] at hp
    split at hp
    · rw [List.mem_cons] at hp
      rcases hp with rfl | hp
      · simp at hc
      · exact List.mem_cons_of_mem c0 (ih p hp c hc)
    · split at hp
      · rw [List.mem_singleton] at hp
        subst hp
        rw [List.mem_singleton] at hc
        rw [hc]
        exact List.mem_cons_self c0 rest
      · rename_i h t hrest
        rw [List.mem_cons] at hp
        rcases hp with rfl | hp
        · rw [List.mem_cons] at hc
          rcases hc with rfl | hc
          · exact List.mem_cons_self c rest
          · have hh : h ∈ splitPipe rest := by rw [hrest]; exact List.mem_cons_self h t
            exact List.mem_cons_of_mem c0 (ih h hh c hc)
        · have hp2 : p ∈ splitPipe rest := by rw [hrest]; exact List.mem_cons_of_mem h hp
          exact List.mem_cons_of_mem c0 (ih p hp2 c hc)

/-- Characters of any stripped pipe field come from the original line. -/
theorem pipe_parts_chars {line part : String}
    (hp : part ∈ pipe_parts line) {c : Char} (hc : c ∈ part.data) : c ∈ line.data := by
  simp only [pipe_parts, List.mem_map] at hp
  obtain ⟨p, hpmem, rfl⟩ := hp
  have hcp : c ∈ p := mem_of_pyStrip hc
  have hcraw := splitPipe_chars _ p hpmem c hcp
  rw [List.mem_reverse] at hcraw
  have h2 := mem_of_dropWhile hcraw
  rwa [List.mem_reverse] at h2

/-- An in-range `getD` returns a member of the list. -/
theorem getD_mem_of_lt {α : Type} {l : List α} {n : Nat} {d : α}
    (h : n < l.length) : l.getD n d ∈ l := by
  rw [List.getD_eq_getElem l d h]
  exact List.getElem_mem h

/-- A pipe-format line can only produce a row with a binary winner. -/
theorem pipe_line_winner_ok {line : String} {r : Row}
    (h : pipe_line_to_row line = some r) : r.winner = "TRUE" ∨ r.winner = "" := by
  simp only [pipe_line_to_row] at h
  split at h
  · exact absurd h (by simp)
  · split at h
    · exact absurd h (by simp)
    · split at h
      · exact absurd h (by simp)
      · split at h
        · exact absurd h (by simp)
        · injection h with h
          subst h
          dsimp only
          split
          · exact Or.inl rfl
          · exact Or.inr rfl

/-- A pipe-format line with no minus sign can only produce non-negative
votes. -/
theorem pipe_line_votes_nonneg {line : String} {r : Row} (hm : '-' ∉ line.data)
    (h : pipe_line_to_row line = some r) : 0 ≤ r.votes := by
  simp only [pipe_line_to_row] at h
  split at h
  · exact absurd h (by simp)
  · split at h
    · exact absurd h (by simp)
    · rename_i hlen
      split at h
      · exact absurd h (by simp)
      · split at h
        · exact absurd h (by simp)
        · rename_i votes hvotes
          injection h with h
          subst h
          dsimp only
          refine pyInt_nonneg ?_ hvotes
          intro hc
          have h9 : (pipe_parts line).getD 9 "" ∈ pipe_parts line :=
            getD_mem_of_lt (by omega)
          exact hm (pipe_parts_chars h9 (mem_of_removeCommas hc))

/-- The winner of a modern-format output row is binary. -/
theorem modern_row_winner_ok (vc : List String) (row : List (String × String)) :
    (modern_row_out vc row).winner = "TRUE" ∨ (modern_row_out vc row).winner = "" := by
  have heq : (modern_row_out vc row).winner =
      (if toUpperStr (pyStrip (getOr row "Winner")) == "Y" ||
          toUpperStr (pyStrip (getOr row "Winner")) == "TRUE" ||
          toUpperStr (pyStrip (getOr row "Winner")) == "1" then "TRUE" else "") := rfl
  rw [heq]
  split
  · exact Or.inl rfl
  · exact Or.inr rfl

/-- The votes of a modern-format output row are the per-column sum. -/
theorem modern_row_votes_eq (vc : List String) (row : List (String × String)) :
    (modern_row_out vc row).votes = (vc.map (fun col => parse_int (rowGet row col))).sum := rfl

/-- The votes of a modern-format output row are non-negative when the record
values contain no minus sign. -/
theorem modern_row_votes_nonneg {vc : List String} {row : List (String × String)}
    (hrow : ∀ kv ∈ row, '-' ∉ kv.2.data) : 0 ≤ (modern_row_out vc row).votes := by
  rw [modern_row_votes_eq]
  refine List.sum_nonneg ?_
  intro x hx
  rw [List.mem_map] at hx
  obtain ⟨col, _, rfl⟩ := hx
  refine parse_int_nonneg ?_
  intro v hv
  unfold rowGet at hv
  cases hf : row.find? (fun kv => kv.1 == col) with
  | none => rw [hf] at hv; exact absurd hv (by simp)
  | some kv =>
    rw [hf] at hv
    have hv2 : kv.2 = v := by simpa using hv
    rw [← hv2]
    exact hrow kv (List.mem_of_find?_eq_some hf)

/-- Representative raw county strings: the 24 canonical Maryland names and the
suffixed, cased, backticked and quoted variants that occur in the data. -/
def md_county_inputs : List String :=
  ["Allegany", "Anne Arundel", "Baltimore City", "Baltimore", "Calvert", "Caroline",
   "Carroll", "Cecil", "Charles", "Dorchester", "Frederick", "Garrett", "Harford",
   "Howard", "Kent", "Montgomery",
   "Prince George" ++ apostS ++ "s", "Queen Anne" ++ apostS ++ "s",
   "St. Mary" ++ apostS ++ "s",
   "Somerset", "Talbot", "Washington", "Wicomico", "Worcester",
   "Somerset County", "Baltimore city", "BALTIMORE CITY",
   "Prince George" ++ graveS ++ "s", "Prince George" ++ graveS ++ "s County",
   "Queen Anne" ++ graveS ++ "s County", "St. Mary" ++ graveS ++ "s County",
   "  Worcester County  ", "\"Talbot County\"", "ALLEGANY COUNTY", "wicomico county"]

/-- C3 counterexample: `normalize_county` is not idempotent as claimed; on
`"Somerset County County"` one application yields `"Somerset County"` and a
second application strips a further ` County` suffix, yielding `"Somerset"`. -/
theorem claim3_counterexample :
    normalize_county (normalize_county "Somerset County County") ≠
      normalize_county "Somerset County County" := by decide

/-- C3 (amended): `normalize_county` is idempotent on every actually-occurring
Maryland county string — all 24 canonical names and their ` County`-suffixed,
re-cased, backticked, quoted and `city` variants — though not on adversarial
inputs whose normalized form still ends in a ` County` suffix or a quote. -/
theorem claim3_idempotent_on_county_inputs :
    ∀ s ∈ md_county_inputs, normalize_county (normalize_county s) = normalize_county s := by
  decide

/-- Witness for C3 (amended) at the concrete input `"Somerset County"`. -/
theorem claim3_witness :
    "Somerset County" ∈ md_county_inputs ∧
      normalize_county (normalize_county "Somerset County") =
        normalize_county "Somerset County" :=
  ⟨by decide, claim3_idempotent_on_county_inputs "Somerset County" (by decide)⟩

/-- C4: the pivoted-legacy extractor on the three-row example produces exactly
the two claimed rows, in order: Alice (DEM, 120, not winner) then Bob
(REP, 80, winner). -/
theorem claim4_pivoted_end_to_end :
    convert_csv_style_file
        [["Governor - Vote For One"],
         ["", "Alice (DEM)", "Bob (REP) Winner"],
         ["Somerset County", "120", "80"]] =
      [⟨"Somerset", "", "Governor", "", "DEM", "Alice", 120, ""⟩,
       ⟨"Somerset", "", "Governor", "", "REP", "Bob", 80, "TRUE"⟩] := by decide

/-- C7: `parse_candidate` maps the two example cells as claimed, and in
general its winner component is `"TRUE"` exactly when the whitespace- and
quote-stripped cell ends with the literal suffix `" Winner"`, and `""`
otherwise. -/
theorem claim7_parse_candidate :
    parse_candidate "Jane Doe (DEM) Winner" = ("Jane Doe", "DEM", "TRUE") ∧
      parse_candidate "John Q. Smith" = ("John Q. Smith", "", "") ∧
      ∀ cell, (parse_candidate cell).2.2 =
        (if endsWithStr (stripQuotes (pyStrip cell)) " Winner" then "TRUE" else "") :=
  ⟨by decide, by decide, fun cell => parse_candidate_winner_eq cell⟩

/-- C8: whatever the utf-8-sig and cp1252 decoders do, the encoding-tolerant
reader always succeeds, because the final latin-1 fallback decodes every byte
sequence; the retry after the loop is therefore unreachable via decoding
failure. -/
theorem claim8_reader_total :
    ∀ (utf8sigD cp1252D : List (Fin 256) → Option (List Nat)) (bs : List (Fin 256)),
      ∃ t, read_text_with_fallback utf8sigD cp1252D bs = some t := by
  intro d1 d2 bs
  unfold read_text_with_fallback
  cases h1 : d1 bs with
  | some t => exact ⟨t, rfl⟩
  | none =>
    cases h2 : d2 bs with
    | some t => exact ⟨t, rfl⟩
    | none => exact ⟨bs.map Fin.val, rfl⟩

/-- C6: dispatch is exactly as claimed — a `.txt` extension (case-insensitive)
routes to the pipe extractor regardless of content; otherwise a first CSV row
containing both a `Candidate Name` and an `Office Name` cell (after quote
stripping and whitespace trimming) routes to the modern extractor; everything
else routes to the pivoted-legacy extractor. -/
theorem claim6_format_selection :
    ∀ (sfx : String) (parsedRows : List (List String)),
      convert_file_choice sfx parsedRows =
        (if toLowerStr sfx = ".txt" then ExtractorKind.pipeStyle
         else if (((parsedRows.headD []).map (fun h => stripQuotes (pyStrip h))).contains
                    "Candidate Name" &&
                  ((parsedRows.headD []).map (fun h => stripQuotes (pyStrip h))).contains
                    "Office Name") = true
         then ExtractorKind.modernStyle
         else ExtractorKind.legacyStyle) := by
  intro sfx rows
  simp only [convert_file_choice, detect_csv_format, beq_iff_eq]
  by_cases h1 : toLowerStr sfx = ".txt"
  · simp only [if_pos h1]
  · simp only [if_neg h1]
    by_cases h2 : (((rows.headD []).map (fun h => stripQuotes (pyStrip h))).contains
          "Candidate Name" &&
        ((rows.headD []).map (fun h => stripQuotes (pyStrip h))).contains
          "Office Name") = true
    · simp only [if_pos h2]
      simp
    · simp only [if_neg h2]
      simp

/-- C9: in all three extractors, the winner field of every emitted row is exactly
`"TRUE"` or the empty string. -/
theorem claim9_winner_binary :
    ∀ (rows : List (List String)) (lines : List String) (fns : List String)
      (mrows : List (List (String × String))),
      ((convert_csv_style_file rows).all fun r => r.winner == "TRUE" || r.winner == "") = true ∧
      ((convert_pipe_style_file lines).all fun r => r.winner == "TRUE" || r.winner == "") = true ∧
      ((convert_modern_precinct_csv fns mrows).all
        fun r => r.winner == "TRUE" || r.winner == "") = true := by
  intro rows lines fns mrows
  refine ⟨?_, ?_, ?_⟩
  · rw [List.all_eq_true]
    intro r hr
    unfold convert_csv_style_file at hr
    have h := csv_fold_winner rows ({ office := none, candidates := [] }, [])
      (by simp) (by simp) r hr
    rcases h with h | h <;> simp [h]
  · rw [List.all_eq_true]
    intro r hr
    unfold convert_pipe_style_file at hr
    obtain ⟨line, _, hline⟩ := List.mem_filterMap.mp hr
    rcases pipe_line_winner_ok hline with h | h <;> simp [h]
  · rw [List.all_eq_true]
    intro r hr
    unfold convert_modern_precinct_csv at hr
    split at hr
    · simp at hr
    · obtain ⟨row, _, rfl⟩ := List.mem_map.mp hr
      rcases modern_row_winner_ok (vote_columns_of fns) row with h | h <;> simp [h]

/-- The vote-column filter of the source coincides with the description in the claim:
the truthiness conjunct is redundant because the empty header cannot contain
`"Votes"`. -/
theorem vote_columns_claim_eq (fns : List String) :
    vote_columns_of fns =
      fns.filter (fun c => strContains c "Votes" && !(strContains c "Against")) := by
  unfold vote_columns_of
  refine List.filter_congr ?_
  intro c _
  by_cases hq : (c == "") = true
  · have hc : c = "" := eq_of_beq hq
    subst hc
    decide
  · have hf : (c == "") = false := by
      cases h : c == "" with
      | true => exact absurd h hq
      | false => rfl
    simp [hf]

/-- C5: in the modern extractor, the votes of each output row equal the sum of
`parse_int` over exactly the columns whose header contains `"Votes"` but not
`"Against"`; on the concrete example with Election Day 10, Early 5 and
Provisional Against 3 the sum is 15. -/
theorem claim5_modern_votes_sum :
    (∀ (fns : List String) (mrows : List (List (String × String))), fns ≠ [] →
      (convert_modern_precinct_csv fns mrows).map Row.votes =
        mrows.map (fun row =>
          ((fns.filter (fun c => strContains c "Votes" && !(strContains c "Against"))).map
            (fun col => parse_int (rowGet row col))).sum)) ∧
    (convert_modern_precinct_csv
        ["Candidate Name", "Office Name", "Election Day Votes", "Early Votes",
         "Provisional Against Votes"]
        [[("Candidate Name", "X"), ("Office Name", "Gov"), ("Election Day Votes", "10"),
          ("Early Votes", "5"), ("Provisional Against Votes", "3")]]).map Row.votes
      = [15] := by
  constructor
  · intro fns mrows hfns
    unfold convert_modern_precinct_csv
    rw [if_neg (by simpa using hfns)]
    rw [vote_columns_claim_eq, List.map_map]
    rfl
  · decide

/-- Witness for C5 at a concrete header list and record. -/
theorem claim5_witness :
    (["Candidate Name", "Office Name", "Election Day Votes", "Early Votes",
      "Provisional Against Votes"] : List String) ≠ [] ∧
    (convert_modern_precinct_csv
        ["Candidate Name", "Office Name", "Election Day Votes", "Early Votes",
         "Provisional Against Votes"]
        [[("Candidate Name", "X"), ("Office Name", "Gov"), ("Election Day Votes", "10"),
          ("Early Votes", "5"), ("Provisional Against Votes", "3")]]).map Row.votes =
      [[("Candidate Name", "X"), ("Office Name", "Gov"), ("Election Day Votes", "10"),
        ("Early Votes", "5"), ("Provisional Against Votes", "3")]].map (fun row =>
        (((["Candidate Name", "Office Name", "Election Day Votes", "Early Votes",
            "Provisional Against Votes"] : List String).filter
            (fun c => strContains c "Votes" && !(strContains c "Against"))).map
          (fun col => parse_int (rowGet row col))).sum) :=
  ⟨by decide, claim5_modern_votes_sum.1 _ _ (by decide)⟩

/-- C1 counterexample: the claim that emitted votes are non-negative fails —
a legacy vote cell `"-5"` parses with Python `int` and is emitted as `-5`. -/
theorem claim1_counterexample :
    ((convert_csv_style_file
        [["Governor Vote For One"], ["", "Alice (DEM)"], ["Somerset", "-5"]]).map Row.votes
      = [-5]) ∧
    ¬(∀ r ∈ convert_csv_style_file
        [["Governor Vote For One"], ["", "Alice (DEM)"], ["Somerset", "-5"]],
        0 ≤ r.votes) :=
  ⟨by decide, by decide⟩

/-- C1 (amended): the votes field of every emitted row is an integer successfully
parsed from the input (blank and non-numeric cells are never emitted in the
legacy and pipe extractors, and the modern extractor sums per-column parses);
it is non-negative whenever no input cell contains a minus sign, but an input
cell with a leading minus is emitted as a negative integer. -/
theorem claim1_votes_nonneg_amended :
    (∀ rows : List (List String), (∀ rrow ∈ rows, ∀ cell ∈ rrow, '-' ∉ cell.data) →
      ∀ r ∈ convert_csv_style_file rows, 0 ≤ r.votes) ∧
    (∀ lines : List String, (∀ line ∈ lines, '-' ∉ line.data) →
      ∀ r ∈ convert_pipe_style_file lines, 0 ≤ r.votes) ∧
    (∀ (fns : List String) (mrows : List (List (String × String))),
      (∀ row ∈ mrows, ∀ kv ∈ row, '-' ∉ kv.2.data) →
      ∀ r ∈ convert_modern_precinct_csv fns mrows, 0 ≤ r.votes) := by
  refine ⟨?_, ?_, ?_⟩
  · intro rows hrows r hr
    unfold convert_csv_style_file at hr
    exact csv_fold_votes rows _ hrows (by simp) r hr
  · intro lines hlines r hr
    unfold convert_pipe_style_file at hr
    obtain ⟨line, hmem, hline⟩ := List.mem_filterMap.mp hr
    exact pipe_line_votes_nonneg (hlines line hmem) hline
  · intro fns mrows hm r hr
    unfold convert_modern_precinct_csv at hr
    split at hr
    · simp at hr
    · obtain ⟨row, hrow, rfl⟩ := List.mem_map.mp hr
      exact modern_row_votes_nonneg (hm row hrow)

/-- Witness for C1 (amended) on minus-free concrete inputs to all three
extractors. -/
theorem claim1_witness :
    (∀ r ∈ convert_csv_style_file
        [["Governor Vote For One"], ["", "Alice (DEM)"], ["Somerset", "120"]],
      0 ≤ r.votes) ∧
    (∀ r ∈ convert_pipe_style_file ["Governor|x|Somerset|Doe|\\N|Jane|DEM|1|x|42"],
      0 ≤ r.votes) ∧
    (∀ r ∈ convert_modern_precinct_csv ["Candidate Name", "Office Name", "Early Votes"]
        [[("Candidate Name", "X"), ("Office Name", "Gov"), ("Early Votes", "7")]],
      0 ≤ r.votes) := by
  obtain ⟨a, b, c⟩ := claim1_votes_nonneg_amended
  exact ⟨a _ (by decide), b _ (by decide), c _ _ (by decide)⟩

/-- C2 counterexample: the claim that every extractor drops rows with a
blank or non-numeric vote cell fails for the modern extractor, which emits
the row with the placeholder sum 0. -/
theorem claim2_counterexample :
    ((convert_modern_precinct_csv ["Candidate Name", "Office Name", "Early Votes"]
        [[("Candidate Name", "X"), ("Office Name", "Gov"), ("Early Votes", "abc")]]).map
        Row.votes = [0]) ∧
    convert_modern_precinct_csv ["Candidate Name", "Office Name", "Early Votes"]
        [[("Candidate Name", "X"), ("Office Name", "Gov"), ("Early Votes", "abc")]] ≠ [] :=
  ⟨by decide, by decide⟩

/-- C2 (amended): in the pivoted-legacy extractor a candidate position whose
vote cell is missing, blank or non-numeric contributes no output row; in the
pipe extractor a line whose vote field is blank, NULL or non-numeric produces
no row; the modern extractor never drops records — every record yields exactly
one output row (unparseable vote columns contributing zero). -/
theorem claim2_drop_behavior_amended :
    (∀ (office county : String) (rowS : List String) (idx : Nat)
        (t : String × String × String) (rest : List (String × String × String)),
      (rowS.length ≤ idx ∨ stripQuotes (pyStrip (rowS.getD idx "")) = "" ∨
        pyInt (removeCommas (stripQuotes (pyStrip (rowS.getD idx "")))) = none) →
      emitData office county rowS idx (t :: rest) =
        emitData office county rowS (idx + 1) rest) ∧
    (∀ line : String, ¬((pipe_parts line).length < 10) →
      ((pipe_parts line).getD 9 "" = "" ∨ (pipe_parts line).getD 9 "" = NULLTOK ∨
        pyInt (removeCommas ((pipe_parts line).getD 9 "")) = none) →
      pipe_line_to_row line = none) ∧
    (∀ (fns : List String) (mrows : List (List (String × String))), fns ≠ [] →
      (convert_modern_precinct_csv fns mrows).length = mrows.length) := by
  refine ⟨?_, ?_, ?_⟩
  · intro office county rowS idx t rest hd
    simp only [emitData]
    rcases Nat.lt_or_ge idx rowS.length with hlt | hge
    · rw [dif_pos hlt]
      have hgetD : rowS.getD idx "" = rowS.get ⟨idx, hlt⟩ := by
        rw [List.getD_eq_getElem rowS "" hlt, List.get_eq_getElem]
      rcases hd with hd | hd | hd
      · omega
      · rw [hgetD] at hd
        rw [if_pos (by rw [hd]; rfl)]
        simp
      · rw [hgetD] at hd
        by_cases he : (stripQuotes (pyStrip (rowS.get ⟨idx, hlt⟩)) == "") = true
        · rw [if_pos he]
          simp
        · rw [if_neg he, hd]
          simp
    · rw [dif_neg (by omega)]
      simp
  · intro line hlen hd
    simp only [pipe_line_to_row]
    split
    · rfl
    · by_cases he : (((pipe_parts line).getD 9 "" == "") ||
          ((pipe_parts line).getD 9 "" == NULLTOK)) = true
      · rw [if_pos he]
      · rw [if_neg he]
        rcases hd with hd | hd | hd
        · exact absurd (show (((pipe_parts line).getD 9 "" == "") ||
              ((pipe_parts line).getD 9 "" == NULLTOK)) = true by rw [hd]; decide) he
        · exact absurd (show (((pipe_parts line).getD 9 "" == "") ||
              ((pipe_parts line).getD 9 "" == NULLTOK)) = true by rw [hd]; decide) he
        · rw [hd]
  · intro fns mrows hfns
    unfold convert_modern_precinct_csv
    rw [if_neg (by simpa using hfns)]
    simp

/-- Witness for C2 (amended): a blank legacy vote cell skips that candidate,
a non-numeric pipe vote field drops the line, and the modern extractor keeps
its single record. -/
theorem claim2_witness :
    (emitData "Governor" "Somerset" ["Somerset", ""] 1 [("Alice", "DEM", "")] =
      emitData "Governor" "Somerset" ["Somerset", ""] 2 []) ∧
    (pipe_line_to_row "Governor|x|Somerset|Doe|\\N|Jane|DEM|1|x|abc" = none) ∧
    ((convert_modern_precinct_csv ["Candidate Name", "Office Name", "Early Votes"]
        [[("Candidate Name", "X"), ("Office Name", "Gov"), ("Early Votes", "xy")]]).length
      = 1) := by
  obtain ⟨a, b, c⟩ := claim2_drop_behavior_amended
  refine ⟨a "Governor" "Somerset" ["Somerset", ""] 1 ("Alice", "DEM", "") []
      (Or.inr (Or.inl (by decide))),
    b "Governor|x|Somerset|Doe|\\N|Jane|DEM|1|x|abc" (by decide)
      (Or.inr (Or.inr (by decide))), ?_⟩
  have h := c ["Candidate Name", "Office Name", "Early Votes"]
    [[("Candidate Name", "X"), ("Office Name", "Gov"), ("Early Votes", "xy")]] (by decide)
  simpa using h

/-- C10 counterexample: a row with empty County Name and the unmapped code
cell `"Foo County"` is emitted with county `"Foo"`, not with the code string
itself — normalization alters the passed-through code. -/
theorem claim10_counterexample :
    (pyStrip (getOr [("Candidate Name", "A"), ("Office Name", "Gov"), ("County", "Foo County")]
        "County Name") = "") ∧
    COUNTY_CODE_TO_NAME_get (zfill 2 (pyStrip (getOr
        [("Candidate Name", "A"), ("Office Name", "Gov"), ("County", "Foo County")] "County")))
      = none ∧
    ((convert_modern_precinct_csv ["Candidate Name", "Office Name", "County"]
        [[("Candidate Name", "A"), ("Office Name", "Gov"), ("County", "Foo County")]]).map
        Row.county = ["Foo"]) ∧
    ¬("Foo" = zfill 2 (pyStrip (getOr
        [("Candidate Name", "A"), ("Office Name", "Gov"), ("County", "Foo County")]
        "County"))) := by decide

/-- C10 (amended): a record with empty `County Name` and an unmapped
zero-padded `County` code is still emitted, and its county field is
`normalize_county` of the zero-padded code — equal to the code itself whenever
normalization leaves it unchanged (as for purely numeric codes). -/
theorem claim10_unmapped_code_passthrough :
    ∀ (fns : List String) (mrows : List (List (String × String)))
      (row : List (String × String)), row ∈ mrows → fns ≠ [] →
      pyStrip (getOr row "County Name") = "" →
      COUNTY_CODE_TO_NAME_get (zfill 2 (pyStrip (getOr row "County"))) = none →
      ∃ r ∈ convert_modern_precinct_csv fns mrows,
        r.county = normalize_county (zfill 2 (pyStrip (getOr row "County"))) := by
  intro fns mrows row hmem hfns hname hcode
  unfold convert_modern_precinct_csv
  rw [if_neg (by simpa using hfns)]
  refine ⟨modern_row_out (vote_columns_of fns) row, List.mem_map_of_mem _ hmem, ?_⟩
  have heq : (modern_row_out (vote_columns_of fns) row).county =
      normalize_county (if (pyStrip (getOr row "County Name") == "") = true
        then (COUNTY_CODE_TO_NAME_get (zfill 2 (pyStrip (getOr row "County")))).getD
              (zfill 2 (pyStrip (getOr row "County")))
        else pyStrip (getOr row "County Name")) := rfl
  rw [heq, hname, hcode]
  simp

/-- Witness for C10 (amended) at the concrete unmapped numeric code `"99"`. -/
theorem claim10_witness :
    ∃ r ∈ convert_modern_precinct_csv ["Candidate Name", "Office Name", "County"]
        [[("Candidate Name", "A"), ("Office Name", "Gov"), ("County", "99")]],
      r.county = normalize_county (zfill 2 (pyStrip (getOr
        [("Candidate Name", "A"), ("Office Name", "Gov"), ("County", "99")] "County"))) :=
  claim10_unmapped_code_passthrough _ _ _ (by decide) (by decide) (by decide) (by decide)

end MD
